import Mathlib

/-!
Shallow embedding of `src/sdf_2_smiles.py` (santuchal/sdf_to_smiles).

The Python module converts an SDF file into a list of CSV rows with
canonical SMILES strings.  Rows are Python dicts from string keys to
string values; we model them as association lists with Python-dict
semantics (`in` tests a key, assignment updates in place or appends).
External chemistry-library behaviour (RDKit) is modelled as data: each
record of the input stream either failed to parse (`mol is None`),
yielded a molecule together with the outcome of `Chem.MolToSmiles`,
its properties and its `_Name`, or raised an exception the engine does
not catch (modelling an unexpected interruption of the iteration).
-/

set_option maxRecDepth 4000

/-- A Python dict from strings to strings, in insertion order. -/
abbrev Row := List (String × String)

/-- Python `row[k]` lookup (first entry with the key), as an `Option`. -/
def Row.get : Row → String → Option String
  | [], _ => none
  | p :: ps, k => if p.1 = k then some p.2 else Row.get ps k

/-- Python `k in row`. -/
def Row.contains : Row → String → Bool
  | [], _ => false
  | p :: ps, k => if p.1 = k then true else Row.contains ps k

/-- Python `row[k] = v`: update in place when the key exists, else append. -/
def Row.insert (r : Row) (k v : String) : Row :=
  if r.contains k then r.map (fun p => if p.1 = k then (k, v) else p)
  else r ++ [(k, v)]

/-- The keys of a row, in order. -/
def Row.keys (r : Row) : List String := r.map Prod.fst

/-- Python `x or y` on an optional string (`None` and `""` are falsy). -/
def pyOrStr (o : Option String) (d : String) : String :=
  match o with
  | some s => if s = "" then d else s
  | none => d

/-- Python truthiness of an optional string (`None` and `""` are falsy). -/
def pyTruthy (o : Option String) : Bool :=
  match o with
  | some s => if s = "" then false else true
  | none => false

/-- The `alcoa_metadata` dict passed to `_build_alcoa_columns`. -/
abbrev Metadata := List (String × String)

/-- Embedding of `_build_alcoa_columns` (src/sdf_2_smiles.py lines 18-42):
the returned dict, as a key-value list in the source's insertion order.
`metadata.get(k, d)` is `(Row.get md k).getD d`; the dataset identifier
uses Python `or`, so an empty `dataset_id` also falls back to the
default `f"{source_file}::{run_timestamp_utc}"`. -/
def buildAlcoaColumns (run_timestamp_utc source_file : String)
    (metadata : Option Metadata) : List (String × String) :=
  let md := metadata.getD []
  let dataset_identifier :=
    pyOrStr (Row.get md "dataset_id") (source_file ++ "::" ++ run_timestamp_utc)
  [("alcoa_attributable_operator", (Row.get md "operator").getD ""),
   ("alcoa_legible_purpose", (Row.get md "purpose").getD ""),
   ("alcoa_contemporaneous_timestamp_utc", run_timestamp_utc),
   ("alcoa_original_source_file", source_file),
   ("alcoa_accurate_input_sha256", (Row.get md "file_hash").getD ""),
   ("alcoa_complete_dataset_id", dataset_identifier),
   ("alcoa_consistent_processing_label",
     (Row.get md "processing_label").getD "sdf_2_smiles_v1"),
   ("alcoa_enduring_storage_plan", (Row.get md "storage_plan").getD ""),
   ("alcoa_available_contact", (Row.get md "contact").getD "")]

/-- The observable behaviour of one RDKit molecule object:
`smiles` is the result of `Chem.MolToSmiles` (`none` models the call
raising an exception), `name` is `GetProp("_Name")` (`none` models a
`KeyError`), `props` is `GetPropsAsDict` as already-stringified
key-value pairs, in iteration order. -/
structure Molecule where
  smiles : Option String
  name : Option String
  props : List (String × String)
deriving DecidableEq

/-- One step of the record stream yielded by `Chem.ForwardSDMolSupplier`:
a parse failure (`mol is None`), a molecule, or an exception the engine
does not catch, raised while producing or processing this record. -/
inductive Rec where
  | parseFail
  | mol (m : Molecule)
  | unexpected
deriving DecidableEq

/-- One `key_str` merge step of the property loop
(src/sdf_2_smiles.py lines 120-124): rename once on collision with an
existing column by prepending `prop_`, then dict-assign. -/
def mergePropsStep (r : Row) (kv : String × String) : Row :=
  let k := if r.contains kv.1 then "prop_" ++ kv.1 else kv.1
  r.insert k kv.2

/-- Row construction for one successfully converted record
(src/sdf_2_smiles.py lines 105-135): fixed columns, `mol_name`
defaulting to `""` on a missing `_Name`, property merge with one-shot
collision renaming, then (when ALCOA+ is on) `row.update` with the
nine alcoa columns. -/
def buildRow (idx : Nat) (smiles basename rt : String) (m : Molecule)
    (enforce_alcoa : Bool) (alcoa_metadata : Option Metadata) : Row :=
  let row : Row :=
    [("record_index", toString idx),
     ("smiles", smiles),
     ("source_file", basename),
     ("processing_timestamp_utc", rt)]
  let row := row.insert "mol_name" (m.name.getD "")
  let row := m.props.foldl mergePropsStep row
  if enforce_alcoa then
    (buildAlcoaColumns rt basename alcoa_metadata).foldl
      (fun r kv => r.insert kv.1 kv.2) row
  else row

/-- The loop-local state of `process_sdf_records`: the accumulated rows,
the five counters, and the molecules written to the failed-record sink. -/
structure LoopState where
  rows : List Row
  nTotal : Nat
  nParsed : Nat
  nSmilesOk : Nat
  nParseFail : Nat
  nSmilesFail : Nat
  badWrites : List Molecule
deriving DecidableEq

/-- The state before the first record. -/
def initState : LoopState :=
  { rows := [], nTotal := 0, nParsed := 0, nSmilesOk := 0,
    nParseFail := 0, nSmilesFail := 0, badWrites := [] }

/-- The body of the `for idx, mol in enumerate(mol_iterator, start=1)` loop
(src/sdf_2_smiles.py lines 86-135) for a single record; `none` models an
uncaught exception propagating out of the loop. -/
def stepRec (hasSink enforce_alcoa : Bool) (alcoa_metadata : Option Metadata)
    (basename rt : String) (idx : Nat) (st : LoopState) : Rec → Option LoopState
  | .unexpected => none
  | .parseFail =>
      some { st with nTotal := st.nTotal + 1, nParseFail := st.nParseFail + 1 }
  | .mol m =>
      match m.smiles with
      | none =>
          some { st with
                  nTotal := st.nTotal + 1, nParsed := st.nParsed + 1,
                  nSmilesFail := st.nSmilesFail + 1,
                  badWrites := if hasSink then st.badWrites ++ [m] else st.badWrites }
      | some smi =>
          some { st with
                  nTotal := st.nTotal + 1, nParsed := st.nParsed + 1,
                  nSmilesOk := st.nSmilesOk + 1,
                  rows := st.rows ++
                    [buildRow idx smi basename rt m enforce_alcoa alcoa_metadata] }

/-- The per-record loop: returns the state reached and whether the
iteration was aborted by an uncaught exception. -/
def processLoop (hasSink enforce_alcoa : Bool) (alcoa_metadata : Option Metadata)
    (basename rt : String) : Nat → LoopState → List Rec → LoopState × Bool
  | _, st, [] => (st, false)
  | idx, st, r :: rs =>
      match stepRec hasSink enforce_alcoa alcoa_metadata basename rt idx st r with
      | none => (st, true)
      | some st2 => processLoop hasSink enforce_alcoa alcoa_metadata basename rt
          (idx + 1) st2 rs

/-- Python `line.strip()` with no argument: drop leading and trailing
whitespace (written over the character list so the kernel can
evaluate it). -/
def pyStrip (s : String) : String :=
  String.mk (((s.data.dropWhile Char.isWhitespace).reverse.dropWhile
    Char.isWhitespace).reverse)

/-- Embedding of `count_molecules_in_sdf` (src/sdf_2_smiles.py lines
156-168) over the decoded lines of the file: count the lines that
strip to exactly `$$$$`. -/
def count_molecules_in_sdf (lines : List String) : Nat :=
  lines.countP (fun line => pyStrip line == "$$$$")

/-- The input file as the engine observes it: whether `os.path.isfile`
holds, the decoded text lines (for the separator counter), the record
stream the external parser yields from its bytes, and its basename and
absolute path. -/
structure SdfFile where
  pathExists : Bool
  lines : List String
  records : List Rec
  basename : String
  abspath : String
deriving DecidableEq

/-- The exceptions `process_sdf_records` can let escape. -/
inductive PyErr where
  | fileNotFound
  | unexpected
deriving DecidableEq

/-- The six counters of the run summary. -/
structure Counts where
  total_records_seen : Nat
  total_records_expected_from_separators : Nat
  parsed_ok : Nat
  smiles_converted_ok : Nat
  parse_failures : Nat
  smiles_failures : Nat
deriving DecidableEq

/-- The summary dict built at src/sdf_2_smiles.py lines 140-151. -/
structure Summary where
  input_sdf : String
  run_timestamp_utc : String
  counts : Counts
deriving DecidableEq

/-- Assembling the summary from the final loop state. -/
def mkSummary (abspath rt : String) (total_mols : Nat) (st : LoopState) : Summary :=
  { input_sdf := abspath, run_timestamp_utc := rt,
    counts :=
      { total_records_seen := st.nTotal,
        total_records_expected_from_separators := total_mols,
        parsed_ok := st.nParsed,
        smiles_converted_ok := st.nSmilesOk,
        parse_failures := st.nParseFail,
        smiles_failures := st.nSmilesFail } }

/-- What one call of `process_sdf_records` does: its return value or
escaped exception, and the open/close/write events on the failed-record
sink (`SDWriter`). -/
structure ProcOutput where
  result : Except PyErr (List Row × Summary)
  sinkOpens : Nat
  sinkCloses : Nat
  sinkWrites : List Molecule

/-- Embedding of `process_sdf_records` (src/sdf_2_smiles.py lines
45-153).  `now` is the environment's current UTC time, used only when
the caller supplies no (or a falsy) `run_timestamp_utc`.  The
`show_progress` flag only wraps the iterator in a progress bar and has
no effect on the data.  The `SDWriter` is constructed after the
`isfile` check and before the loop; its `close()` runs only when the
loop finishes without an uncaught exception. -/
def process_sdf_records (f : SdfFile) (bad_sdf_path : Option String)
    (enforce_alcoa : Bool) (alcoa_metadata : Option Metadata)
    (run_timestamp_utc : Option String) (show_progress : Bool)
    (now : String) : ProcOutput :=
  if f.pathExists then
    let total_mols := count_molecules_in_sdf f.lines
    let rt := pyOrStr run_timestamp_utc now
    let hasSink := pyTruthy bad_sdf_path
    match processLoop hasSink enforce_alcoa alcoa_metadata f.basename rt
        1 initState f.records with
    | (st, true) =>
        { result := .error .unexpected,
          sinkOpens := if hasSink then 1 else 0,
          sinkCloses := 0,
          sinkWrites := st.badWrites }
    | (st, false) =>
        { result := .ok (st.rows, mkSummary f.abspath rt total_mols st),
          sinkOpens := if hasSink then 1 else 0,
          sinkCloses := if hasSink then 1 else 0,
          sinkWrites := st.badWrites }
  else
    { result := .error .fileNotFound, sinkOpens := 0, sinkCloses := 0,
      sinkWrites := [] }

/-- The CSV file written by `convert_sdf_to_smiles`: the header row and
the data rows (each projected through the header by `csv.DictWriter`,
missing keys written as the empty string). -/
structure CsvOut where
  header : List String
  dataRows : List (List String)
deriving DecidableEq

/-- `sorted({key for row in rows for key in row.keys()})`
(src/sdf_2_smiles.py line 204). -/
def csvFieldnames (rows : List Row) : List String :=
  List.insertionSort (fun a b => a ≤ b) (rows.flatMap Row.keys).dedup

/-- One data row as `csv.DictWriter` writes it. -/
def dictWriterRow (fieldnames : List String) (r : Row) : List String :=
  fieldnames.map (fun k => (Row.get r k).getD "")

/-- Embedding of `convert_sdf_to_smiles` (src/sdf_2_smiles.py lines
171-208), restricted to the CSV it writes and the summary it builds
(path bookkeeping and JSON dumping omitted): zero rows still write a
fixed five-column header, otherwise the header is the sorted union of
all row keys. -/
def convert_sdf_to_smiles (f : SdfFile) (bad_sdf_path : String)
    (now : String) : Except PyErr (CsvOut × Summary) :=
  if f.pathExists then
    let out := process_sdf_records f (some bad_sdf_path) false none none true now
    match out.result with
    | .error e => .error e
    | .ok (rows, summary) =>
        if rows.isEmpty then
          .ok ({ header := ["record_index", "smiles", "source_file",
                            "processing_timestamp_utc", "mol_name"],
                 dataRows := [] }, summary)
        else
          let fieldnames := csvFieldnames rows
          .ok ({ header := fieldnames,
                 dataRows := rows.map (dictWriterRow fieldnames) }, summary)
  else
    .error .fileNotFound

/-- The nine fixed ALCOA+ column names, in the source's insertion order. -/
def alcoaKeys : List String :=
  ["alcoa_attributable_operator", "alcoa_legible_purpose",
   "alcoa_contemporaneous_timestamp_utc", "alcoa_original_source_file",
   "alcoa_accurate_input_sha256", "alcoa_complete_dataset_id",
   "alcoa_consistent_processing_label", "alcoa_enduring_storage_plan",
   "alcoa_available_contact"]

/-- The 1-based positions, in the original stream, of the records that
parse and convert successfully (the records for which the engine emits
a row), starting the count at `idx`. -/
def successIndices : Nat → List Rec → List Nat
  | _, [] => []
  | idx, Rec.mol m :: rs =>
      match m.smiles with
      | some _ => idx :: successIndices (idx + 1) rs
      | none => successIndices (idx + 1) rs
  | idx, Rec.parseFail :: rs => successIndices (idx + 1) rs
  | idx, Rec.unexpected :: rs => successIndices (idx + 1) rs

/-! ### Dict (association-list) lemmas -/

theorem Row.get_nil (k : String) : Row.get [] k = none := rfl

theorem Row.get_cons (p : String × String) (ps : Row) (k : String) :
    Row.get (p :: ps) k = if p.1 = k then some p.2 else Row.get ps k := rfl

theorem Row.contains_eq_isSome (r : Row) (k : String) :
    Row.contains r k = (Row.get r k).isSome := by
  induction r with
  | nil => rfl
  | cons p ps ih => by_cases hp : p.1 = k <;> simp [Row.get, Row.contains, hp, ih]

theorem Row.get_map_replace (r : Row) (k v k2 : String) :
    Row.get (r.map (fun p => if p.1 = k then (k, v) else p)) k2 =
      if k2 = k then (Row.get r k).map (fun _ => v) else Row.get r k2 := by
  induction r with
  | nil => by_cases h2 : k2 = k <;> simp [Row.get, h2]
  | cons p ps ih =>
    by_cases hp : p.1 = k
    · by_cases h2 : k2 = k
      · subst h2; simp [Row.get, hp, ih]
      · have h2s : ¬k = k2 := fun hh => h2 hh.symm
        simp [Row.get, hp, h2, h2s, ih]
    · by_cases h2 : k2 = k
      · subst h2
        simp [Row.get, hp, ih, fun hh : p.1 = k2 => hp hh]
      · by_cases hpk : p.1 = k2 <;> simp [Row.get, hp, hpk, h2, ih]

theorem Row.get_append (r s : Row) (k : String) :
    Row.get (r ++ s) k = (Row.get r k).or (Row.get s k) := by
  induction r with
  | nil => simp [Row.get, Option.or]
  | cons p ps ih => by_cases hp : p.1 = k <;> simp [Row.get, hp, ih, Option.or]

theorem Row.get_insert (r : Row) (k v k2 : String) :
    (Row.insert r k v).get k2 = if k2 = k then some v else Row.get r k2 := by
  unfold Row.insert
  by_cases hc : Row.contains r k = true
  · rw [if_pos hc, Row.get_map_replace]
    by_cases h2 : k2 = k
    · rw [if_pos h2, if_pos h2]
      subst h2
      rw [Row.contains_eq_isSome] at hc
      obtain ⟨w, hw⟩ := Option.isSome_iff_exists.mp hc
      rw [hw]; rfl
    · rw [if_neg h2, if_neg h2]
  · rw [if_neg hc, Row.get_append]
    by_cases h2 : k2 = k
    · subst h2
      have hnone : Row.get r k2 = none := by
        rw [Row.contains_eq_isSome] at hc
        cases h : Row.get r k2 with
        | none => rfl
        | some w => rw [h] at hc; simp at hc
      rw [hnone, if_pos rfl]
      simp [Row.get, Option.or]
    · rw [if_neg h2]
      have h2s : ¬k = k2 := fun hh => h2 hh.symm
      cases h : Row.get r k2 with
      | none => simp [Row.get, Option.or, h2s]
      | some w => rfl

theorem Row.keys_map_replace (r : Row) (k v : String) :
    (r.map (fun p => if p.1 = k then (k, v) else p)).map Prod.fst = r.map Prod.fst := by
  induction r with
  | nil => rfl
  | cons p ps ih => by_cases hp : p.1 = k <;> simp [hp, ih]

theorem Row.keys_insert_of_contains (r : Row) (k v : String)
    (hc : Row.contains r k = true) : (Row.insert r k v).keys = r.keys := by
  unfold Row.insert Row.keys
  rw [if_pos hc]
  exact Row.keys_map_replace r k v

theorem Row.contains_insert_of_contains (r : Row) (k v k2 : String)
    (hc : Row.contains r k2 = true) : (Row.insert r k v).contains k2 = true := by
  rw [Row.contains_eq_isSome, Row.get_insert]
  by_cases h2 : k2 = k
  · rw [if_pos h2]; rfl
  · rw [if_neg h2, ← Row.contains_eq_isSome]; exact hc

/-! ### String-literal facts used by the collision analysis -/

theorem prop_concat_ne_record_index (s : String) : "prop_" ++ s ≠ "record_index" := by
  intro h
  have hd : ("prop_" ++ s).data = "record_index".data := congrArg String.data h
  rw [String.data_append] at hd
  simp only [show "prop_".data = ['p', 'r', 'o', 'p', '_'] from rfl,
    show "record_index".data = ['r', 'e', 'c', 'o', 'r', 'd', '_', 'i', 'n', 'd', 'e', 'x'] from rfl,
    List.cons_append] at hd
  injection hd with h1 _
  exact absurd h1 (by decide)

theorem prop_concat_ne_of_take (s t : String)
    (h : t.data.take 5 ≠ ['p', 'r', 'o', 'p', '_']) : "prop_" ++ s ≠ t := by
  intro heq
  apply h
  rw [← heq, String.data_append,
    show "prop_".data = ['p', 'r', 'o', 'p', '_'] from rfl]
  rfl

theorem ne_prop_concat_self (k : String) : k ≠ "prop_" ++ k := by
  intro h
  have hl := congrArg String.length h
  rw [String.length_append, show "prop_".length = 5 from rfl] at hl
  omega

/-! ### Folding dict inserts -/

theorem get_foldl_insert_of_ne (kvs : List (String × String)) :
    ∀ (r : Row) (k : String), (∀ kv ∈ kvs, kv.1 ≠ k) →
      Row.get (kvs.foldl (fun r2 kv => r2.insert kv.1 kv.2) r) k = Row.get r k := by
  induction kvs with
  | nil => intro r k _; rfl
  | cons kv kvs ih =>
    intro r k h
    rw [List.foldl_cons,
      ih _ _ (fun x hx => h x (List.mem_cons_of_mem _ hx)),
      Row.get_insert,
      if_neg (fun hh : k = kv.1 => h kv (List.mem_cons_self ..) hh.symm)]

theorem get_foldl_insert_of_mem (kvs : List (String × String)) :
    ∀ (r : Row) (k v : String), (kvs.map Prod.fst).Nodup → (k, v) ∈ kvs →
      Row.get (kvs.foldl (fun r2 kv => r2.insert kv.1 kv.2) r) k = some v := by
  induction kvs with
  | nil => intro r k v _ hmem; simp at hmem
  | cons kv kvs ih =>
    intro r k v hnd hmem
    rw [List.foldl_cons]
    rcases List.mem_cons.mp hmem with heq | htail
    · subst heq
      rw [List.map_cons, List.nodup_cons] at hnd
      rw [get_foldl_insert_of_ne kvs _ _
        (fun x hx hh => hnd.1 (by have hm := List.mem_map_of_mem Prod.fst hx; rw [hh] at hm; exact hm)),
        Row.get_insert, if_pos rfl]
    · rw [List.map_cons, List.nodup_cons] at hnd
      exact ih _ _ _ hnd.2 htail

theorem get_foldl_merge (ps : List (String × String)) :
    ∀ (r : Row) (k : String), Row.contains r k = true →
      (∀ s : String, "prop_" ++ s ≠ k) →
      Row.get (ps.foldl mergePropsStep r) k = Row.get r k := by
  induction ps with
  | nil => intro r k _ _; rfl
  | cons p ps ih =>
    intro r k hc hk
    rw [List.foldl_cons]
    have hkey : (if Row.contains r p.1 = true then "prop_" ++ p.1 else p.1) ≠ k := by
      by_cases hp : Row.contains r p.1 = true
      · rw [if_pos hp]; exact hk p.1
      · rw [if_neg hp]
        intro hh
        exact hp (hh ▸ hc)
    have hstep : Row.get (mergePropsStep r p) k = Row.get r k := by
      unfold mergePropsStep
      rw [Row.get_insert, if_neg (fun hh : k = _ => hkey hh.symm)]
    have hcont : Row.contains (mergePropsStep r p) k = true := by
      rw [Row.contains_eq_isSome, hstep, ← Row.contains_eq_isSome]
      exact hc
    rw [ih _ _ hcont hk, hstep]

/-! ### Row-construction lemmas -/

theorem map_fst_buildAlcoaColumns (rt b : String) (meta : Option Metadata) :
    (buildAlcoaColumns rt b meta).map Prod.fst = alcoaKeys := rfl

theorem get_buildRow_record_index (idx : Nat) (smi b rt : String) (m : Molecule)
    (e : Bool) (meta : Option Metadata) :
    Row.get (buildRow idx smi b rt m e meta) "record_index" = some (toString idx) := by
  unfold buildRow
  dsimp only
  have h1 : Row.get
      (Row.insert [("record_index", toString idx), ("smiles", smi),
        ("source_file", b), ("processing_timestamp_utc", rt)]
        "mol_name" (m.name.getD "")) "record_index" = some (toString idx) := by
    rw [Row.get_insert,
      if_neg (by decide : ¬("record_index" : String) = "mol_name"),
      Row.get_cons, if_pos rfl]
  have hcont : Row.contains
      (Row.insert [("record_index", toString idx), ("smiles", smi),
        ("source_file", b), ("processing_timestamp_utc", rt)]
        "mol_name" (m.name.getD "")) "record_index" = true := by
    rw [Row.contains_eq_isSome, h1]; rfl
  have h2 : Row.get (m.props.foldl mergePropsStep
      (Row.insert [("record_index", toString idx), ("smiles", smi),
        ("source_file", b), ("processing_timestamp_utc", rt)]
        "mol_name" (m.name.getD ""))) "record_index" = some (toString idx) := by
    rw [get_foldl_merge _ _ _ hcont prop_concat_ne_record_index, h1]
  cases e with
  | false => simpa using h2
  | true =>
    have hne : ∀ kv ∈ buildAlcoaColumns rt b meta, kv.1 ≠ "record_index" := by
      intro kv hkv hh
      have hm := List.mem_map_of_mem Prod.fst hkv
      rw [map_fst_buildAlcoaColumns, hh] at hm
      exact absurd hm (by decide)
    rw [if_pos (rfl : true = true), get_foldl_insert_of_ne _ _ _ hne, h2]

theorem get_buildRow_alcoa (idx : Nat) (smi b rt : String) (m : Molecule)
    (meta : Option Metadata) :
    ∀ kv ∈ buildAlcoaColumns rt b meta,
      Row.get (buildRow idx smi b rt m true meta) kv.1 = some kv.2 := by
  intro kv hkv
  unfold buildRow
  dsimp only
  rw [if_pos (rfl : true = true)]
  have hnd : ((buildAlcoaColumns rt b meta).map Prod.fst).Nodup := by
    rw [map_fst_buildAlcoaColumns]
    decide
  exact get_foldl_insert_of_mem _ _ _ _ hnd hkv

/-! ### Loop lemmas -/

theorem processLoop_counts (hs e : Bool) (meta : Option Metadata) (b rt : String) :
    ∀ (rs : List Rec) (idx : Nat) (st st2 : LoopState) (ab : Bool),
      processLoop hs e meta b rt idx st rs = (st2, ab) →
      (st.nParsed + st.nParseFail = st.nTotal →
        st2.nParsed + st2.nParseFail = st2.nTotal) ∧
      (st.nSmilesOk + st.nSmilesFail = st.nParsed →
        st2.nSmilesOk + st2.nSmilesFail = st2.nParsed) := by
  intro rs
  induction rs with
  | nil =>
    intro idx st st2 ab h
    simp only [processLoop, Prod.mk.injEq] at h
    rw [← h.1]
    exact ⟨id, id⟩
  | cons r rs ih =>
    intro idx st st2 ab h
    cases r with
    | unexpected =>
      simp only [processLoop, stepRec, Prod.mk.injEq] at h
      rw [← h.1]
      exact ⟨id, id⟩
    | parseFail =>
      simp only [processLoop, stepRec] at h
      have hi := ih (idx + 1) _ st2 ab h
      constructor
      · intro hinv
        exact hi.1 (by simp; omega)
      · intro hinv
        exact hi.2 (by simpa using hinv)
    | mol m =>
      cases hsm : m.smiles with
      | none =>
        simp only [processLoop, stepRec, hsm] at h
        have hi := ih (idx + 1) _ st2 ab h
        constructor
        · intro hinv
          exact hi.1 (by simp; omega)
        · intro hinv
          exact hi.2 (by simp; omega)
      | some smi =>
        simp only [processLoop, stepRec, hsm] at h
        have hi := ih (idx + 1) _ st2 ab h
        constructor
        · intro hinv
          exact hi.1 (by simp; omega)
        · intro hinv
          exact hi.2 (by simp; omega)

theorem processLoop_rows_indices (hs e : Bool) (meta : Option Metadata) (b rt : String) :
    ∀ (rs : List Rec) (idx : Nat) (st st2 : LoopState),
      processLoop hs e meta b rt idx st rs = (st2, false) →
      st2.rows.map (fun r => Row.get r "record_index") =
        st.rows.map (fun r => Row.get r "record_index") ++
          (successIndices idx rs).map (fun n => some (toString n)) := by
  intro rs
  induction rs with
  | nil =>
    intro idx st st2 h
    simp only [processLoop, Prod.mk.injEq] at h
    rw [← h.1]
    simp [successIndices]
  | cons r rs ih =>
    intro idx st st2 h
    cases r with
    | unexpected =>
      simp only [processLoop, stepRec, Prod.mk.injEq] at h
      exact absurd h.2 (by simp)
    | parseFail =>
      simp only [processLoop, stepRec] at h
      rw [ih (idx + 1) _ st2 h]
      simp [successIndices]
    | mol m =>
      cases hsm : m.smiles with
      | none =>
        simp only [processLoop, stepRec, hsm] at h
        rw [ih (idx + 1) _ st2 h]
        simp [successIndices, hsm]
      | some smi =>
        simp only [processLoop, stepRec, hsm] at h
        rw [ih (idx + 1) _ st2 h]
        simp [successIndices, hsm, get_buildRow_record_index]

theorem successIndices_chain : ∀ (rs : List Rec) (idx : Nat),
    List.Chain' (fun a n => a < n) (successIndices idx rs) ∧
      ∀ n ∈ successIndices idx rs, idx ≤ n := by
  intro rs
  induction rs with
  | nil => intro idx; simp [successIndices]
  | cons r rs ih =>
    intro idx
    cases r with
    | parseFail =>
      refine ⟨(ih (idx + 1)).1, fun n hn => ?_⟩
      have := (ih (idx + 1)).2 n (by simpa [successIndices] using hn)
      omega
    | unexpected =>
      refine ⟨(ih (idx + 1)).1, fun n hn => ?_⟩
      have := (ih (idx + 1)).2 n (by simpa [successIndices] using hn)
      omega
    | mol m =>
      cases hsm : m.smiles with
      | none =>
        refine ⟨?_, fun n hn => ?_⟩
        · simpa [successIndices, hsm] using (ih (idx + 1)).1
        · have := (ih (idx + 1)).2 n (by simpa [successIndices, hsm] using hn)
          omega
      | some smi =>
        have hunfold : successIndices idx (Rec.mol m :: rs) =
            idx :: successIndices (idx + 1) rs := by
          simp [successIndices, hsm]
        constructor
        · rw [hunfold]
          refine List.chain'_cons'.mpr ⟨?_, (ih (idx + 1)).1⟩
          intro n hn
          have hmem : n ∈ successIndices (idx + 1) rs := List.mem_of_mem_head? hn
          have := (ih (idx + 1)).2 n hmem
          omega
        · intro n hn
          rw [hunfold] at hn
          rcases List.mem_cons.mp hn with heq | htail
          · omega
          · have := (ih (idx + 1)).2 n htail
            omega

theorem processLoop_rows_shape (hs e : Bool) (meta : Option Metadata) (b rt : String) :
    ∀ (rs : List Rec) (idx : Nat) (st st2 : LoopState),
      processLoop hs e meta b rt idx st rs = (st2, false) →
      ∀ row ∈ st2.rows, row ∈ st.rows ∨
        ∃ (i : Nat) (smi : String) (m : Molecule),
          row = buildRow i smi b rt m e meta := by
  intro rs
  induction rs with
  | nil =>
    intro idx st st2 h row hrow
    simp only [processLoop, Prod.mk.injEq] at h
    rw [← h.1] at hrow
    exact Or.inl hrow
  | cons r rs ih =>
    intro idx st st2 h row hrow
    cases r with
    | unexpected =>
      simp only [processLoop, stepRec, Prod.mk.injEq] at h
      exact absurd h.2 (by simp)
    | parseFail =>
      simp only [processLoop, stepRec] at h
      exact ih (idx + 1) _ st2 h row hrow
    | mol m =>
      cases hsm : m.smiles with
      | none =>
        simp only [processLoop, stepRec, hsm] at h
        exact ih (idx + 1) _ st2 h row hrow
      | some smi =>
        simp only [processLoop, stepRec, hsm] at h
        rcases ih (idx + 1) _ st2 h row hrow with hmem | hex
        · simp only [List.mem_append, List.mem_singleton] at hmem
          rcases hmem with hmem | heq
          · exact Or.inl hmem
          · exact Or.inr ⟨idx, smi, m, heq⟩
        · exact Or.inr hex

theorem processLoop_no_unexpected (hs e : Bool) (meta : Option Metadata) (b rt : String) :
    ∀ (rs : List Rec) (idx : Nat) (st : LoopState),
      Rec.unexpected ∉ rs →
      (processLoop hs e meta b rt idx st rs).2 = false := by
  intro rs
  induction rs with
  | nil => intro idx st _; rfl
  | cons r rs ih =>
    intro idx st h
    cases r with
    | unexpected => exact absurd (List.mem_cons_self ..) h
    | parseFail =>
      simp only [processLoop, stepRec]
      exact ih (idx + 1) _ (fun hh => h (List.mem_cons_of_mem _ hh))
    | mol m =>
      cases hsm : m.smiles with
      | none =>
        simp only [processLoop, stepRec, hsm]
        exact ih (idx + 1) _ (fun hh => h (List.mem_cons_of_mem _ hh))
      | some smi =>
        simp only [processLoop, stepRec, hsm]
        exact ih (idx + 1) _ (fun hh => h (List.mem_cons_of_mem _ hh))

/-- Unpacking a successful run of `process_sdf_records`: the input file
existed, the loop traversed the whole stream without an uncaught
exception, and the returned rows and summary come from the final loop
state. -/
theorem process_result_ok (f : SdfFile) (bad : Option String) (ea : Bool)
    (meta : Option Metadata) (rt : Option String) (sp : Bool) (now : String)
    (rows : List Row) (s : Summary)
    (h : (process_sdf_records f bad ea meta rt sp now).result = Except.ok (rows, s)) :
    f.pathExists = true ∧
    ∃ st, processLoop (pyTruthy bad) ea meta f.basename (pyOrStr rt now)
        1 initState f.records = (st, false) ∧
      rows = st.rows ∧
      s = mkSummary f.abspath (pyOrStr rt now) (count_molecules_in_sdf f.lines) st := by
  by_cases hp : f.pathExists = true
  · refine ⟨hp, ?_⟩
    unfold process_sdf_records at h
    rw [if_pos hp] at h
    dsimp only at h
    cases hloop : processLoop (pyTruthy bad) ea meta f.basename (pyOrStr rt now)
        1 initState f.records with
    | mk st ab =>
      rw [hloop] at h
      cases ab with
      | true => exact Except.noConfusion h
      | false =>
        dsimp only at h
        simp only [Except.ok.injEq, Prod.mk.injEq] at h
        exact ⟨st, rfl, h.1.symm, h.2.symm⟩
  · unfold process_sdf_records at h
    rw [if_neg hp] at h
    exact Except.noConfusion h

/-! ### Claim theorems -/

/-- Claim C1, code evidence.  The spec says the failed-record sink is
closed exactly once on every execution path, including when the
iteration is interrupted by an unexpected exception.  The code opens
the `SDWriter` outside any scoped construct and calls `close()` only
after the loop, so an uncaught exception during iteration leaves the
sink open: on a one-record stream that raises, the sink is opened once
and never closed.  The parts of the claim the code does satisfy also
hold: with no path supplied no sink is opened, and a normally
completing run closes the sink exactly once. -/
theorem sink_not_closed_on_unexpected_interruption :
    (process_sdf_records
        ⟨true, [], [Rec.unexpected], "in.sdf", "/tmp/in.sdf"⟩
        (some "bad.sdf") false none (some "T") true "NOW" =
      { result := Except.error PyErr.unexpected, sinkOpens := 1,
        sinkCloses := 0, sinkWrites := [] }) ∧
    ((process_sdf_records
        ⟨true, [], [Rec.unexpected], "in.sdf", "/tmp/in.sdf"⟩
        none false none (some "T") true "NOW").sinkOpens = 0) ∧
    ((process_sdf_records
        ⟨true, [], [Rec.parseFail], "in.sdf", "/tmp/in.sdf"⟩
        (some "bad.sdf") false none (some "T") true "NOW").sinkOpens = 1 ∧
     (process_sdf_records
        ⟨true, [], [Rec.parseFail], "in.sdf", "/tmp/in.sdf"⟩
        (some "bad.sdf") false none (some "T") true "NOW").sinkCloses = 1) :=
  ⟨rfl, rfl, rfl, rfl⟩

/-- Claim C2.  On every completed run, the summary counters satisfy
`parsed_ok + parse_failures = total_records_seen` and
`smiles_converted_ok + smiles_failures = parsed_ok`. -/
theorem summary_counter_invariants (f : SdfFile) (bad : Option String)
    (ea : Bool) (meta : Option Metadata) (rt : Option String) (sp : Bool)
    (now : String) (rows : List Row) (s : Summary)
    (h : (process_sdf_records f bad ea meta rt sp now).result = Except.ok (rows, s)) :
    s.counts.parsed_ok + s.counts.parse_failures = s.counts.total_records_seen ∧
    s.counts.smiles_converted_ok + s.counts.smiles_failures = s.counts.parsed_ok := by
  obtain ⟨hp, st, hloop, hrows, hs⟩ := process_result_ok f bad ea meta rt sp now rows s h
  subst hs
  have hc := processLoop_counts (pyTruthy bad) ea meta f.basename (pyOrStr rt now)
    f.records 1 initState st false hloop
  exact ⟨hc.1 rfl, hc.2 rfl⟩

/-- Claim C3.  On every completed run, the emitted rows' `record_index`
values are exactly the 1-based positions of the successfully converted
records in the original stream (failed records keep consuming
positions), and those positions are strictly increasing. -/
theorem record_index_matches_source_position (f : SdfFile) (bad : Option String)
    (ea : Bool) (meta : Option Metadata) (rt : Option String) (sp : Bool)
    (now : String) (rows : List Row) (s : Summary)
    (h : (process_sdf_records f bad ea meta rt sp now).result = Except.ok (rows, s)) :
    rows.map (fun r => Row.get r "record_index") =
      (successIndices 1 f.records).map (fun n => some (toString n)) ∧
    List.Chain' (fun a n => a < n) (successIndices 1 f.records) := by
  obtain ⟨hp, st, hloop, hrows, hs⟩ := process_result_ok f bad ea meta rt sp now rows s h
  subst hrows
  constructor
  · have hmap := processLoop_rows_indices (pyTruthy bad) ea meta f.basename
      (pyOrStr rt now) f.records 1 initState st hloop
    simpa [initState] using hmap
  · exact (successIndices_chain f.records 1).1

/-- Claim C4.  When `convert_sdf_to_smiles` completes: with zero rows it
still writes a CSV holding exactly the fixed five-column header and no
data rows; with rows present the header it writes is the sorted,
duplicate-free union of the keys of all emitted rows. -/
theorem csv_header_sorted_union (f : SdfFile) (bad : String) (now : String)
    (rows : List Row) (s : Summary) (csv : CsvOut) (s2 : Summary)
    (h1 : (process_sdf_records f (some bad) false none none true now).result =
      Except.ok (rows, s))
    (h2 : convert_sdf_to_smiles f bad now = Except.ok (csv, s2)) :
    (rows = [] →
      csv = { header := ["record_index", "smiles", "source_file",
                         "processing_timestamp_utc", "mol_name"],
              dataRows := [] }) ∧
    (rows ≠ [] →
      List.Sorted (fun a c : String => a ≤ c) csv.header ∧
      csv.header.Nodup ∧
      (∀ k, k ∈ csv.header ↔ ∃ r ∈ rows, k ∈ Row.keys r)) := by
  have hp : f.pathExists = true :=
    (process_result_ok f (some bad) false none none true now rows s h1).1
  unfold convert_sdf_to_smiles at h2
  rw [if_pos hp] at h2
  dsimp only at h2
  rw [h1] at h2
  cases rows with
  | nil =>
    dsimp only [List.isEmpty_nil] at h2
    rw [if_pos (rfl : true = true)] at h2
    simp only [Except.ok.injEq, Prod.mk.injEq] at h2
    exact ⟨fun _ => h2.1.symm, fun hne => absurd rfl hne⟩
  | cons r0 rows0 =>
    dsimp only [List.isEmpty_cons] at h2
    simp only [Bool.false_eq_true, if_false, Except.ok.injEq, Prod.mk.injEq] at h2
    refine ⟨fun heq => List.noConfusion heq, fun _ => ?_⟩
    rw [← h2.1]
    have hperm := List.perm_insertionSort (fun a c : String => a ≤ c)
      ((r0 :: rows0).flatMap Row.keys).dedup
    refine ⟨?_, ?_, ?_⟩
    · exact List.sorted_insertionSort _ _
    · exact hperm.nodup_iff.mpr (List.nodup_dedup _)
    · intro k
      rw [show (CsvOut.mk (csvFieldnames (r0 :: rows0))
          ((r0 :: rows0).map (dictWriterRow (csvFieldnames (r0 :: rows0))))).header
          = csvFieldnames (r0 :: rows0) from rfl]
      unfold csvFieldnames
      rw [hperm.mem_iff, List.mem_dedup, List.mem_flatMap]

/-- Claim C5.  A parse failure only bumps the record and parse-failure
counters: no row, no sink write, no abort.  A record that parses but
whose SMILES serialization raises only bumps the record, parsed and
smiles-failure counters and is written to the sink exactly when one is
configured: no row, no abort.  A run whose stream contains no uncaught
exception always completes and returns a result. -/
theorem per_record_failure_isolation :
    (∀ (hs e : Bool) (meta : Option Metadata) (b rt : String) (idx : Nat)
      (st : LoopState),
      stepRec hs e meta b rt idx st Rec.parseFail =
        some { st with nTotal := st.nTotal + 1,
                       nParseFail := st.nParseFail + 1 }) ∧
    (∀ (hs e : Bool) (meta : Option Metadata) (b rt : String) (idx : Nat)
      (st : LoopState) (m : Molecule), m.smiles = none →
      stepRec hs e meta b rt idx st (Rec.mol m) =
        some { st with nTotal := st.nTotal + 1, nParsed := st.nParsed + 1,
                       nSmilesFail := st.nSmilesFail + 1,
                       badWrites := if hs then st.badWrites ++ [m]
                                    else st.badWrites }) ∧
    (∀ (f : SdfFile) (bad : Option String) (ea : Bool) (meta : Option Metadata)
      (rt : Option String) (sp : Bool) (now : String),
      f.pathExists = true → Rec.unexpected ∉ f.records →
      ∃ rows s, (process_sdf_records f bad ea meta rt sp now).result =
        Except.ok (rows, s)) := by
  refine ⟨fun hs e meta b rt idx st => rfl,
    fun hs e meta b rt idx st m hm => by simp [stepRec, hm], ?_⟩
  intro f bad ea meta rt sp now hp hun
  have hl := processLoop_no_unexpected (pyTruthy bad) ea meta f.basename
    (pyOrStr rt now) f.records 1 initState hun
  unfold process_sdf_records
  rw [if_pos hp]
  dsimp only
  cases hloop : processLoop (pyTruthy bad) ea meta f.basename (pyOrStr rt now)
      1 initState f.records with
  | mk st ab =>
    rw [hloop] at hl
    cases ab with
    | true => exact absurd hl (by simp)
    | false =>
      exact ⟨st.rows,
        mkSummary f.abspath (pyOrStr rt now) (count_molecules_in_sdf f.lines) st,
        rfl⟩

/-- Claim C6.  When a property key collides with a column already in
the row, the merge step stores the value under `prop_` prepended to the
key (overwriting any existing `prop_`-column silently, adding no new
column in that case) and leaves the original column untouched; in
particular a source tag literally named `smiles` ends up as a
`prop_smiles` column next to the fixed `smiles` column. -/
theorem property_key_collision_renaming :
    (∀ (r : Row) (k v : String), Row.contains r k = true →
      Row.get (mergePropsStep r (k, v)) ("prop_" ++ k) = some v ∧
      Row.get (mergePropsStep r (k, v)) k = Row.get r k ∧
      (Row.contains r ("prop_" ++ k) = true →
        Row.keys (mergePropsStep r (k, v)) = Row.keys r)) ∧
    (∀ (idx : Nat) (smi b rt mn v : String),
      Row.get (buildRow idx smi b rt ⟨some smi, some mn, [("smiles", v)]⟩
        false none) "smiles" = some smi ∧
      Row.get (buildRow idx smi b rt ⟨some smi, some mn, [("smiles", v)]⟩
        false none) "prop_smiles" = some v) := by
  constructor
  · intro r k v hc
    refine ⟨?_, ?_, ?_⟩
    · unfold mergePropsStep
      dsimp only
      rw [if_pos hc, Row.get_insert, if_pos rfl]
    · unfold mergePropsStep
      dsimp only
      rw [if_pos hc, Row.get_insert, if_neg (ne_prop_concat_self k)]
    · intro hc2
      unfold mergePropsStep
      dsimp only
      rw [if_pos hc]
      exact Row.keys_insert_of_contains _ _ _ hc2
  · intro idx smi b rt mn v
    exact ⟨rfl, rfl⟩

/-- Claim C7.  With ALCOA+ enabled, no `dataset_id` and no
`processing_label` in the metadata, every emitted row carries the full
run-level ALCOA column block (so all rows agree on all nine values),
with `alcoa_complete_dataset_id` equal to
`basename ++ "::" ++ run timestamp` and
`alcoa_consistent_processing_label` equal to `sdf_2_smiles_v1`. -/
theorem alcoa_defaults_and_uniformity (f : SdfFile) (bad : Option String)
    (meta : Option Metadata) (rt : Option String) (sp : Bool) (now : String)
    (rows : List Row) (s : Summary)
    (h : (process_sdf_records f bad true meta rt sp now).result = Except.ok (rows, s))
    (hds : Row.get (meta.getD []) "dataset_id" = none)
    (hpl : Row.get (meta.getD []) "processing_label" = none) :
    ∀ row ∈ rows,
      (∀ kv ∈ buildAlcoaColumns s.run_timestamp_utc f.basename meta,
        Row.get row kv.1 = some kv.2) ∧
      Row.get row "alcoa_complete_dataset_id" =
        some (f.basename ++ "::" ++ s.run_timestamp_utc) ∧
      Row.get row "alcoa_consistent_processing_label" = some "sdf_2_smiles_v1" := by
  obtain ⟨hp, st, hloop, hrows, hs⟩ := process_result_ok f bad true meta rt sp now rows s h
  have hsrt : s.run_timestamp_utc = pyOrStr rt now := by subst hs; rfl
  intro row hrow
  subst hrows
  rcases processLoop_rows_shape (pyTruthy bad) true meta f.basename (pyOrStr rt now)
      f.records 1 initState st hloop row hrow with hmem | ⟨i, smi, m, heq⟩
  · exact absurd hmem (by simp [initState])
  · subst heq
    have hall := get_buildRow_alcoa i smi f.basename (pyOrStr rt now) m meta
    refine ⟨?_, ?_, ?_⟩
    · rw [hsrt]
      exact hall
    · have hmem2 : ("alcoa_complete_dataset_id",
          f.basename ++ "::" ++ pyOrStr rt now) ∈
          buildAlcoaColumns (pyOrStr rt now) f.basename meta := by
        unfold buildAlcoaColumns
        dsimp only
        rw [hds]
        simp [pyOrStr]
      have hval := hall _ hmem2
      rw [hsrt]
      exact hval
    · have hmem3 : ("alcoa_consistent_processing_label",
          ("sdf_2_smiles_v1" : String)) ∈
          buildAlcoaColumns (pyOrStr rt now) f.basename meta := by
        unfold buildAlcoaColumns
        dsimp only
        rw [hpl]
        simp
      exact hall _ hmem3

/-- Claim C8.  When the input path is not an existing file,
`process_sdf_records` raises a file-not-found error before anything
else happens: no sink open, close or write, and no result. -/
theorem missing_input_aborts_before_output (f : SdfFile) (bad : Option String)
    (ea : Bool) (meta : Option Metadata) (rt : Option String) (sp : Bool)
    (now : String) (hp : f.pathExists = false) :
    process_sdf_records f bad ea meta rt sp now =
      { result := Except.error PyErr.fileNotFound, sinkOpens := 0,
        sinkCloses := 0, sinkWrites := [] } := by
  unfold process_sdf_records
  rw [if_neg (by simp [hp])]

/-- Claim C9.  With a caller-supplied (non-empty) run timestamp, the
result of `process_sdf_records` does not depend on the wall clock or on
the progress-bar flag: two runs over the same file content with the
same configuration agree on rows, summary and sink events. -/
theorem run_determinism_with_supplied_timestamp (f : SdfFile)
    (bad : Option String) (ea : Bool) (meta : Option Metadata) (ts : String)
    (sp1 sp2 : Bool) (now1 now2 : String) (hts : ts ≠ "") :
    process_sdf_records f bad ea meta (some ts) sp1 now1 =
      process_sdf_records f bad ea meta (some ts) sp2 now2 := by
  unfold process_sdf_records
  rw [show pyOrStr (some ts) now1 = ts by simp [pyOrStr, hts],
    show pyOrStr (some ts) now2 = ts by simp [pyOrStr, hts]]

/-- Claim C10.  With ALCOA+ enabled, a source property whose key equals
one of the nine alcoa column names is silently overwritten by the
run-level value (the alcoa block is merged after the property merge),
and no `prop_`-renamed column is created for it. -/
theorem alcoa_overwrites_colliding_property (idx : Nat)
    (smi b rt v : String) (mn : Option String) (meta : Option Metadata)
    (k w : String) (hkw : (k, w) ∈ buildAlcoaColumns rt b meta) :
    Row.get (buildRow idx smi b rt ⟨some smi, mn, [(k, v)]⟩ true meta) k =
      some w ∧
    Row.contains (buildRow idx smi b rt ⟨some smi, mn, [(k, v)]⟩ true meta)
      ("prop_" ++ k) = false := by
  have hk : k ∈ alcoaKeys := by
    have hm := List.mem_map_of_mem Prod.fst hkw
    rwa [map_fst_buildAlcoaColumns] at hm
  constructor
  · exact get_buildRow_alcoa idx smi b rt ⟨some smi, mn, [(k, v)]⟩ meta (k, w) hkw
  · rw [Row.contains_eq_isSome]
    have hka : ∀ t ∈ alcoaKeys, t.data.take 5 ≠ ['p', 'r', 'o', 'p', '_'] := by
      decide
    have hkfix : ("record_index" : String) ≠ k ∧ ("smiles" : String) ≠ k ∧
        ("source_file" : String) ≠ k ∧
        ("processing_timestamp_utc" : String) ≠ k ∧
        ("mol_name" : String) ≠ k := by
      have hgen : ∀ t ∈ alcoaKeys, ("record_index" : String) ≠ t ∧
          ("smiles" : String) ≠ t ∧ ("source_file" : String) ≠ t ∧
          ("processing_timestamp_utc" : String) ≠ t ∧
          ("mol_name" : String) ≠ t := by decide
      exact hgen k hk
    have hne9 : ∀ kv ∈ buildAlcoaColumns rt b meta, kv.1 ≠ "prop_" ++ k := by
      intro kv hkv hh
      have hm := List.mem_map_of_mem Prod.fst hkv
      rw [map_fst_buildAlcoaColumns] at hm
      exact prop_concat_ne_of_take k kv.1 (hka kv.1 hm) hh.symm
    have hbase_k : Row.get [("record_index", toString idx), ("smiles", smi),
        ("source_file", b), ("processing_timestamp_utc", rt)] k = none := by
      simp [Row.get, hkfix.1, hkfix.2.1, hkfix.2.2.1, hkfix.2.2.2.1]
    have hbase_pk : Row.get [("record_index", toString idx), ("smiles", smi),
        ("source_file", b), ("processing_timestamp_utc", rt)]
        ("prop_" ++ k) = none := by
      have e1 := Ne.symm (prop_concat_ne_of_take k "record_index" (by decide))
      have e2 := Ne.symm (prop_concat_ne_of_take k "smiles" (by decide))
      have e3 := Ne.symm (prop_concat_ne_of_take k "source_file" (by decide))
      have e4 := Ne.symm (prop_concat_ne_of_take k "processing_timestamp_utc"
        (by decide))
      simp [Row.get, e1, e2, e3, e4]
    have hrow1_k : Row.get (Row.insert [("record_index", toString idx),
        ("smiles", smi), ("source_file", b), ("processing_timestamp_utc", rt)]
        "mol_name" (mn.getD "")) k = none := by
      rw [Row.get_insert, if_neg (fun hh => hkfix.2.2.2.2 hh.symm), hbase_k]
    have hc1 : Row.contains (Row.insert [("record_index", toString idx),
        ("smiles", smi), ("source_file", b), ("processing_timestamp_utc", rt)]
        "mol_name" (mn.getD "")) k = false := by
      rw [Row.contains_eq_isSome, hrow1_k]
      rfl
    have hrow1_pk : Row.get (Row.insert [("record_index", toString idx),
        ("smiles", smi), ("source_file", b), ("processing_timestamp_utc", rt)]
        "mol_name" (mn.getD "")) ("prop_" ++ k) = none := by
      rw [Row.get_insert,
        if_neg (prop_concat_ne_of_take k "mol_name" (by decide)), hbase_pk]
    unfold buildRow
    dsimp only
    rw [if_pos (rfl : true = true), get_foldl_insert_of_ne _ _ _ hne9,
      List.foldl_cons, List.foldl_nil]
    unfold mergePropsStep
    dsimp only
    rw [hc1]
    simp only [Bool.false_eq_true, if_false]
    rw [Row.get_insert, if_neg (fun hh => ne_prop_concat_self k hh.symm),
      hrow1_pk]
    rfl

/-! ### Witnesses: the claim theorems applied at concrete inputs -/

/-- Witness for the counter invariants: a three-record stream with one
parse failure. -/
theorem summary_counter_invariants_witness :
    (Counts.mk 3 3 2 2 1 0).parsed_ok + (Counts.mk 3 3 2 2 1 0).parse_failures =
      (Counts.mk 3 3 2 2 1 0).total_records_seen ∧
    (Counts.mk 3 3 2 2 1 0).smiles_converted_ok +
        (Counts.mk 3 3 2 2 1 0).smiles_failures =
      (Counts.mk 3 3 2 2 1 0).parsed_ok :=
  summary_counter_invariants
    ⟨true, ["$$$$", "$$$$", "$$$$"],
      [Rec.mol ⟨some "C", some "one", []⟩, Rec.parseFail,
       Rec.mol ⟨some "N", none, [("MW", "180.16")]⟩],
      "in.sdf", "/tmp/in.sdf"⟩
    (some "bad.sdf") false none (some "T") true "NOW"
    [[("record_index", "1"), ("smiles", "C"), ("source_file", "in.sdf"),
      ("processing_timestamp_utc", "T"), ("mol_name", "one")],
     [("record_index", "3"), ("smiles", "N"), ("source_file", "in.sdf"),
      ("processing_timestamp_utc", "T"), ("mol_name", ""), ("MW", "180.16")]]
    (Summary.mk "/tmp/in.sdf" "T" (Counts.mk 3 3 2 2 1 0)) rfl

/-- Witness for record indices: records 1, 2, 3 where record 2 fails
parsing yield emitted indices 1 and 3. -/
theorem record_index_matches_source_position_witness :
    ([[("record_index", "1"), ("smiles", "C"), ("source_file", "in.sdf"),
       ("processing_timestamp_utc", "T"), ("mol_name", "one")],
      [("record_index", "3"), ("smiles", "N"), ("source_file", "in.sdf"),
       ("processing_timestamp_utc", "T"), ("mol_name", ""), ("MW", "180.16")]] :
      List Row).map (fun r => Row.get r "record_index") =
      (successIndices 1
        [Rec.mol ⟨some "C", some "one", []⟩, Rec.parseFail,
         Rec.mol ⟨some "N", none, [("MW", "180.16")]⟩]).map
        (fun n => some (toString n)) ∧
    List.Chain' (fun a n => a < n)
      (successIndices 1
        [Rec.mol ⟨some "C", some "one", []⟩, Rec.parseFail,
         Rec.mol ⟨some "N", none, [("MW", "180.16")]⟩]) :=
  record_index_matches_source_position
    ⟨true, ["$$$$", "$$$$", "$$$$"],
      [Rec.mol ⟨some "C", some "one", []⟩, Rec.parseFail,
       Rec.mol ⟨some "N", none, [("MW", "180.16")]⟩],
      "in.sdf", "/tmp/in.sdf"⟩
    (some "bad.sdf") false none (some "T") true "NOW"
    [[("record_index", "1"), ("smiles", "C"), ("source_file", "in.sdf"),
      ("processing_timestamp_utc", "T"), ("mol_name", "one")],
     [("record_index", "3"), ("smiles", "N"), ("source_file", "in.sdf"),
      ("processing_timestamp_utc", "T"), ("mol_name", ""), ("MW", "180.16")]]
    (Summary.mk "/tmp/in.sdf" "T" (Counts.mk 3 3 2 2 1 0)) rfl

/-- Witness for the CSV header contract: a run with a single
parse-failed record produces zero rows yet a headered CSV. -/
theorem csv_header_sorted_union_witness :
    (([] : List Row) = [] →
      ({ header := ["record_index", "smiles", "source_file",
                    "processing_timestamp_utc", "mol_name"],
         dataRows := [] } : CsvOut) =
        { header := ["record_index", "smiles", "source_file",
                     "processing_timestamp_utc", "mol_name"],
          dataRows := [] }) ∧
    (([] : List Row) ≠ [] →
      List.Sorted (fun a c : String => a ≤ c)
        (["record_index", "smiles", "source_file",
          "processing_timestamp_utc", "mol_name"] : List String) ∧
      (["record_index", "smiles", "source_file",
        "processing_timestamp_utc", "mol_name"] : List String).Nodup ∧
      (∀ k, k ∈ (["record_index", "smiles", "source_file",
          "processing_timestamp_utc", "mol_name"] : List String) ↔
        ∃ r ∈ ([] : List Row), k ∈ Row.keys r)) :=
  csv_header_sorted_union
    ⟨true, [], [Rec.parseFail], "in.sdf", "/tmp/in.sdf"⟩ "bad.sdf" "NOW"
    [] (Summary.mk "/tmp/in.sdf" "NOW" (Counts.mk 1 0 0 0 1 0))
    { header := ["record_index", "smiles", "source_file",
                 "processing_timestamp_utc", "mol_name"], dataRows := [] }
    (Summary.mk "/tmp/in.sdf" "NOW" (Counts.mk 1 0 0 0 1 0)) rfl rfl

/-- Witness for failure isolation: one parse failure, one
canonicalization failure (written to the sink), and a completing run
over both. -/
theorem per_record_failure_isolation_witness :
    (stepRec false false none "in.sdf" "T" 1 initState Rec.parseFail =
      some { rows := [], nTotal := 1, nParsed := 0, nSmilesOk := 0,
             nParseFail := 1, nSmilesFail := 0, badWrites := [] }) ∧
    (stepRec true false none "in.sdf" "T" 1 initState
        (Rec.mol ⟨none, none, []⟩) =
      some { rows := [], nTotal := 1, nParsed := 1, nSmilesOk := 0,
             nParseFail := 0, nSmilesFail := 1,
             badWrites := [⟨none, none, []⟩] }) ∧
    (∃ rows s,
      (process_sdf_records
        ⟨true, [], [Rec.parseFail, Rec.mol ⟨none, none, []⟩],
          "in.sdf", "/tmp/in.sdf"⟩
        (some "bad.sdf") false none (some "T") true "NOW").result =
        Except.ok (rows, s)) :=
  ⟨per_record_failure_isolation.1 false false none "in.sdf" "T" 1 initState,
   per_record_failure_isolation.2.1 true false none "in.sdf" "T" 1 initState
     ⟨none, none, []⟩ rfl,
   per_record_failure_isolation.2.2
     ⟨true, [], [Rec.parseFail, Rec.mol ⟨none, none, []⟩],
       "in.sdf", "/tmp/in.sdf"⟩
     (some "bad.sdf") false none (some "T") true "NOW" rfl (by decide)⟩

/-- Witness for the collision rules: a row already holding `smiles` and
`prop_smiles`, and a molecule whose tag is literally `smiles`. -/
theorem property_key_collision_renaming_witness :
    Row.get (mergePropsStep [("smiles", "C"), ("prop_smiles", "old")]
      ("smiles", "orig")) "prop_smiles" = some "orig" ∧
    Row.get (mergePropsStep [("smiles", "C"), ("prop_smiles", "old")]
      ("smiles", "orig")) "smiles" = some "C" ∧
    Row.keys (mergePropsStep [("smiles", "C"), ("prop_smiles", "old")]
      ("smiles", "orig")) = ["smiles", "prop_smiles"] ∧
    Row.get (buildRow 1 "C" "in.sdf" "T"
      ⟨some "C", some "nm", [("smiles", "orig")]⟩ false none) "smiles" =
      some "C" ∧
    Row.get (buildRow 1 "C" "in.sdf" "T"
      ⟨some "C", some "nm", [("smiles", "orig")]⟩ false none) "prop_smiles" =
      some "orig" :=
  ⟨(property_key_collision_renaming.1 [("smiles", "C"), ("prop_smiles", "old")]
      "smiles" "orig" rfl).1,
   (property_key_collision_renaming.1 [("smiles", "C"), ("prop_smiles", "old")]
      "smiles" "orig" rfl).2.1,
   (property_key_collision_renaming.1 [("smiles", "C"), ("prop_smiles", "old")]
      "smiles" "orig" rfl).2.2 rfl,
   (property_key_collision_renaming.2 1 "C" "in.sdf" "T" "nm" "orig").1,
   (property_key_collision_renaming.2 1 "C" "in.sdf" "T" "nm" "orig").2⟩

/-- Witness for the ALCOA defaults on a one-record run with operator,
contact and purpose metadata but no dataset id and no processing
label. -/
theorem alcoa_defaults_and_uniformity_witness :
    Row.get
      [("record_index", "1"), ("smiles", "C"), ("source_file", "in.sdf"),
       ("processing_timestamp_utc", "T"), ("mol_name", ""),
       ("alcoa_attributable_operator", "A"), ("alcoa_legible_purpose", "P"),
       ("alcoa_contemporaneous_timestamp_utc", "T"),
       ("alcoa_original_source_file", "in.sdf"),
       ("alcoa_accurate_input_sha256", ""),
       ("alcoa_complete_dataset_id", "in.sdf::T"),
       ("alcoa_consistent_processing_label", "sdf_2_smiles_v1"),
       ("alcoa_enduring_storage_plan", ""),
       ("alcoa_available_contact", "b@x")]
      "alcoa_complete_dataset_id" = some "in.sdf::T" ∧
    Row.get
      [("record_index", "1"), ("smiles", "C"), ("source_file", "in.sdf"),
       ("processing_timestamp_utc", "T"), ("mol_name", ""),
       ("alcoa_attributable_operator", "A"), ("alcoa_legible_purpose", "P"),
       ("alcoa_contemporaneous_timestamp_utc", "T"),
       ("alcoa_original_source_file", "in.sdf"),
       ("alcoa_accurate_input_sha256", ""),
       ("alcoa_complete_dataset_id", "in.sdf::T"),
       ("alcoa_consistent_processing_label", "sdf_2_smiles_v1"),
       ("alcoa_enduring_storage_plan", ""),
       ("alcoa_available_contact", "b@x")]
      "alcoa_consistent_processing_label" = some "sdf_2_smiles_v1" := by
  have h := alcoa_defaults_and_uniformity
    ⟨true, [], [Rec.mol ⟨some "C", none, []⟩], "in.sdf", "/tmp/in.sdf"⟩ none
    (some [("operator", "A"), ("contact", "b@x"), ("purpose", "P")])
    (some "T") true "NOW"
    [[("record_index", "1"), ("smiles", "C"), ("source_file", "in.sdf"),
      ("processing_timestamp_utc", "T"), ("mol_name", ""),
      ("alcoa_attributable_operator", "A"), ("alcoa_legible_purpose", "P"),
      ("alcoa_contemporaneous_timestamp_utc", "T"),
      ("alcoa_original_source_file", "in.sdf"),
      ("alcoa_accurate_input_sha256", ""),
      ("alcoa_complete_dataset_id", "in.sdf::T"),
      ("alcoa_consistent_processing_label", "sdf_2_smiles_v1"),
      ("alcoa_enduring_storage_plan", ""),
      ("alcoa_available_contact", "b@x")]]
    (Summary.mk "/tmp/in.sdf" "T" (Counts.mk 1 0 1 1 0 0)) rfl rfl rfl
    [("record_index", "1"), ("smiles", "C"), ("source_file", "in.sdf"),
     ("processing_timestamp_utc", "T"), ("mol_name", ""),
     ("alcoa_attributable_operator", "A"), ("alcoa_legible_purpose", "P"),
     ("alcoa_contemporaneous_timestamp_utc", "T"),
     ("alcoa_original_source_file", "in.sdf"),
     ("alcoa_accurate_input_sha256", ""),
     ("alcoa_complete_dataset_id", "in.sdf::T"),
     ("alcoa_consistent_processing_label", "sdf_2_smiles_v1"),
     ("alcoa_enduring_storage_plan", ""),
     ("alcoa_available_contact", "b@x")]
    (List.mem_singleton.mpr rfl)
  exact ⟨h.2.1, h.2.2⟩

/-- Witness for the missing-input contract on a nonexistent path. -/
theorem missing_input_aborts_before_output_witness :
    process_sdf_records ⟨false, [], [], "a.sdf", "/a.sdf"⟩ (some "bad.sdf")
      true none (some "T") true "NOW" =
      { result := Except.error PyErr.fileNotFound, sinkOpens := 0,
        sinkCloses := 0, sinkWrites := [] } :=
  missing_input_aborts_before_output ⟨false, [], [], "a.sdf", "/a.sdf"⟩
    (some "bad.sdf") true none (some "T") true "NOW" rfl

/-- Witness for determinism: different wall clocks and progress flags,
same supplied timestamp. -/
theorem run_determinism_with_supplied_timestamp_witness :
    process_sdf_records
      ⟨true, ["$$$$"], [Rec.mol ⟨some "C", none, []⟩], "in.sdf", "/tmp/in.sdf"⟩
      (some "bad.sdf") false none (some "T") true "NOW1" =
    process_sdf_records
      ⟨true, ["$$$$"], [Rec.mol ⟨some "C", none, []⟩], "in.sdf", "/tmp/in.sdf"⟩
      (some "bad.sdf") false none (some "T") false "NOW2" :=
  run_determinism_with_supplied_timestamp
    ⟨true, ["$$$$"], [Rec.mol ⟨some "C", none, []⟩], "in.sdf", "/tmp/in.sdf"⟩
    (some "bad.sdf") false none "T" true false "NOW1" "NOW2" (by decide)

/-- Witness for the ALCOA overwrite: a source tag named
`alcoa_attributable_operator` is replaced by the run-level operator and
no `prop_`-renamed column appears. -/
theorem alcoa_overwrites_colliding_property_witness :
    Row.get (buildRow 1 "C" "in.sdf" "T"
      ⟨some "C", none, [("alcoa_attributable_operator", "evil")]⟩ true
      (some [("operator", "A")])) "alcoa_attributable_operator" = some "A" ∧
    Row.contains (buildRow 1 "C" "in.sdf" "T"
      ⟨some "C", none, [("alcoa_attributable_operator", "evil")]⟩ true
      (some [("operator", "A")])) "prop_alcoa_attributable_operator" = false :=
  alcoa_overwrites_colliding_property 1 "C" "in.sdf" "T" "evil" none
    (some [("operator", "A")]) "alcoa_attributable_operator" "A" (by decide)
